import Mathlib

/-!
Shallow embedding of the build-time content pipeline of the spencermills-website
repository: the scripture normalizer and sermon feed ingestor
(src/_data/sermons.js), the calendar feed ingestor, and the post-build HTML
image rewriter (scripts/optimize-images.js).

Strings are modelled as lists of characters (`Str`), so that the JS string
primitives involved (trim, toLowerCase, startsWith, slice, split) become
structurally recursive list functions amenable to proof.  All the strings the
pipeline manipulates are ASCII, where this model agrees with JS UTF-16
semantics character for character.
-/

abbrev Str := List Char

/-- Coercion from Lean string literals into the character-list model. -/
def str (s : String) : Str := s.data

/-- Whitespace test backing the model of JS `String.prototype.trim` and of the
regex class `\s`; covers the ASCII whitespace characters that can occur in the
feeds (space, tab, newline, carriage return). -/
def isWS (c : Char) : Bool := c = ' ' || c = '\t' || c = '\n' || c = '\r'

/-- Drop leading whitespace. -/
def trimLeft (s : Str) : Str := s.dropWhile isWS

/-- Model of JS `String.prototype.trim`: strip whitespace from both ends. -/
def trim (s : Str) : Str := (trimLeft (trimLeft s).reverse).reverse

/-- Model of JS `String.prototype.toLowerCase` on the ASCII strings involved. -/
def lower (s : Str) : Str := s.map Char.toLower

/-- The `bookNormalization` table of src/_data/sermons.js, in the object's
insertion order (none of the keys is an array-index string, so JS object
iteration order is insertion order). -/
def bookNormalization : List (Str × Str) := [
  (str "genesis", str "Genesis"),
  (str "gen", str "Genesis"),
  (str "exodus", str "Exodus"),
  (str "exod", str "Exodus"),
  (str "leviticus", str "Leviticus"),
  (str "lev", str "Leviticus"),
  (str "numbers", str "Numbers"),
  (str "num", str "Numbers"),
  (str "deuteronomy", str "Deuteronomy"),
  (str "deut", str "Deuteronomy"),
  (str "joshua", str "Joshua"),
  (str "josh", str "Joshua"),
  (str "judges", str "Judges"),
  (str "judg", str "Judges"),
  (str "ruth", str "Ruth"),
  (str "1 samuel", str "1 Samuel"),
  (str "1 sam", str "1 Samuel"),
  (str "2 samuel", str "2 Samuel"),
  (str "2 sam", str "2 Samuel"),
  (str "1 kings", str "1 Kings"),
  (str "1 kgs", str "1 Kings"),
  (str "2 kings", str "2 Kings"),
  (str "2 kgs", str "2 Kings"),
  (str "1 chronicles", str "1 Chronicles"),
  (str "1 chr", str "1 Chronicles"),
  (str "2 chronicles", str "2 Chronicles"),
  (str "2 chr", str "2 Chronicles"),
  (str "ezra", str "Ezra"),
  (str "nehemiah", str "Nehemiah"),
  (str "neh", str "Nehemiah"),
  (str "esther", str "Esther"),
  (str "esth", str "Esther"),
  (str "job", str "Job"),
  (str "psalms", str "Psalms"),
  (str "psalm", str "Psalms"),
  (str "ps", str "Psalms"),
  (str "proverbs", str "Proverbs"),
  (str "prov", str "Proverbs"),
  (str "ecclesiastes", str "Ecclesiastes"),
  (str "eccl", str "Ecclesiastes"),
  (str "song of solomon", str "Song of Solomon"),
  (str "song of songs", str "Song of Solomon"),
  (str "song", str "Song of Solomon"),
  (str "isaiah", str "Isaiah"),
  (str "isa", str "Isaiah"),
  (str "jeremiah", str "Jeremiah"),
  (str "jer", str "Jeremiah"),
  (str "lamentations", str "Lamentations"),
  (str "lam", str "Lamentations"),
  (str "ezekiel", str "Ezekiel"),
  (str "ezek", str "Ezekiel"),
  (str "daniel", str "Daniel"),
  (str "dan", str "Daniel"),
  (str "hosea", str "Hosea"),
  (str "hos", str "Hosea"),
  (str "joel", str "Joel"),
  (str "amos", str "Amos"),
  (str "obadiah", str "Obadiah"),
  (str "obad", str "Obadiah"),
  (str "jonah", str "Jonah"),
  (str "micah", str "Micah"),
  (str "mic", str "Micah"),
  (str "nahum", str "Nahum"),
  (str "nah", str "Nahum"),
  (str "habakkuk", str "Habakkuk"),
  (str "hab", str "Habakkuk"),
  (str "zephaniah", str "Zephaniah"),
  (str "zeph", str "Zephaniah"),
  (str "haggai", str "Haggai"),
  (str "hag", str "Haggai"),
  (str "zechariah", str "Zechariah"),
  (str "zech", str "Zechariah"),
  (str "malachi", str "Malachi"),
  (str "mal", str "Malachi"),
  (str "matthew", str "Matthew"),
  (str "matt", str "Matthew"),
  (str "mark", str "Mark"),
  (str "luke", str "Luke"),
  (str "john", str "John"),
  (str "acts", str "Acts"),
  (str "romans", str "Romans"),
  (str "rom", str "Romans"),
  (str "1 corinthians", str "1 Corinthians"),
  (str "1 cor", str "1 Corinthians"),
  (str "2 corinthians", str "2 Corinthians"),
  (str "2 cor", str "2 Corinthians"),
  (str "galatians", str "Galatians"),
  (str "galations", str "Galatians"),
  (str "gal", str "Galatians"),
  (str "ephesians", str "Ephesians"),
  (str "eph", str "Ephesians"),
  (str "philippians", str "Philippians"),
  (str "phillipians", str "Philippians"),
  (str "phil", str "Philippians"),
  (str "colossians", str "Colossians"),
  (str "col", str "Colossians"),
  (str "1 thessalonians", str "1 Thessalonians"),
  (str "1 thess", str "1 Thessalonians"),
  (str "2 thessalonians", str "2 Thessalonians"),
  (str "2 thess", str "2 Thessalonians"),
  (str "1 timothy", str "1 Timothy"),
  (str "1 tim", str "1 Timothy"),
  (str "2 timothy", str "2 Timothy"),
  (str "2 tim", str "2 Timothy"),
  (str "titus", str "Titus"),
  (str "philemon", str "Philemon"),
  (str "phlm", str "Philemon"),
  (str "hebrews", str "Hebrews"),
  (str "heb", str "Hebrews"),
  (str "james", str "James"),
  (str "jas", str "James"),
  (str "1 peter", str "1 Peter"),
  (str "1 pet", str "1 Peter"),
  (str "2 peter", str "2 Peter"),
  (str "2 pet", str "2 Peter"),
  (str "1 john", str "1 John"),
  (str "2 john", str "2 John"),
  (str "3 john", str "3 John"),
  (str "jude", str "Jude"),
  (str "revelation", str "Revelation"),
  (str "rev", str "Revelation")]

/-- The match test of the normalization loop:
`lowerText.startsWith(variant + " ") || lowerText === variant`. -/
def matchVariant (lowerText : Str) (vc : Str × Str) : Bool :=
  (vc.1 ++ [' ']).isPrefixOf lowerText || lowerText == vc.1

/-- `normalizeScripture` of src/_data/sermons.js on a string argument.  The JS
guard `!text` is the emptiness test for strings; the `typeof` guard is handled
by the `Option` wrapper below.  The `for...of Object.entries` loop returning on
the first matching variant is `List.find?` over the table in insertion order;
`cleaned.slice(variant.length).trim()` is `trim (cleaned.drop vc.1.length)`
(all table keys are ASCII, so JS UTF-16 indices coincide with character
counts). -/
def normalizeScripture (text : Str) : Str :=
  if text = [] then []
  else
    let cleaned := trim text
    let lowerText := lower cleaned
    match bookNormalization.find? (matchVariant lowerText) with
    | some vc =>
        let remainder := trim (cleaned.drop vc.1.length)
        vc.2 ++ (if remainder = [] then [] else ' ' :: remainder)
    | none => cleaned

/-- `normalizeScripture` including the JS guard for an absent (undefined or
otherwise non-string) argument, which returns the empty string. -/
def normalizeScriptureOpt (text : Option Str) : Str :=
  match text with
  | none => []
  | some s => normalizeScripture s

example : normalizeScripture (str "gen 3:16") = str "Genesis 3:16" := by decide
example : normalizeScripture (str " 1 jOhn 3:16 ") = str "1 John 3:16" := by decide
example : normalizeScripture (str "Zorp 9") = str "Zorp 9" := by decide
example : normalizeScripture (str "song of songs") = str "Song of Solomon" := by decide

/-! JS numeric primitives used by the duration parser and the image rewriter.
A JS number that is NaN is modelled as `none`; arithmetic on `Option Int`
propagates `none` exactly as JS arithmetic propagates NaN. -/

def isDigit (c : Char) : Bool := '0' ≤ c && c ≤ '9'

/-- Numeric value of a nonempty all-digit string. -/
def digitsToNat (s : Str) : Nat := s.foldl (fun n c => 10 * n + (c.toNat - 48)) 0

/-- Digit strings: nonempty and all decimal digits. -/
def isDigits (s : Str) : Bool := !(s = []) && s.all isDigit

/-- Core of the `Number()` model, after whitespace stripping. -/
def jsNumberTrimmed : Str → Option Int
  | [] => some 0
  | c :: rest =>
      if c = '-' then (if isDigits rest then some (-(digitsToNat rest : Int)) else none)
      else if c = '+' then (if isDigits rest then some ((digitsToNat rest : Int)) else none)
      else if isDigits (c :: rest) then some ((digitsToNat (c :: rest) : Int)) else none

/-- Model of the JS `Number()` conversion on the string fragment this pipeline
feeds it: surrounding whitespace is ignored, the empty (or all-whitespace)
string converts to 0, an optionally signed decimal integer literal converts to
its value, and anything else is NaN (`none`).  Fractional, exponent and hex
literals do not occur in the inputs considered here. -/
def jsNumber (s : Str) : Option Int := jsNumberTrimmed (trim s)

/-- Model of the JS `parseInt` conversion: after optional whitespace and an
optional sign, the longest leading digit run gives the value; no digits is
NaN (`none`). -/
def jsParseInt (s : Str) : Option Int :=
  let t := trimLeft s
  match t with
  | '-' :: rest =>
      let d := rest.takeWhile isDigit
      if d = [] then none else some (-(digitsToNat d : Int))
  | '+' :: rest =>
      let d := rest.takeWhile isDigit
      if d = [] then none else some ((digitsToNat d : Int))
  | _ =>
      let d := t.takeWhile isDigit
      if d = [] then none else some ((digitsToNat d : Int))

/-- `String.prototype.split` with a single-character separator: accumulator
variant. -/
def splitOnAux (sep : Char) : Str → Str → List Str
  | [], acc => [acc.reverse]
  | c :: cs, acc =>
      if c = sep then acc.reverse :: splitOnAux sep cs []
      else splitOnAux sep cs (c :: acc)

/-- Model of JS `durationStr.split(":")`. -/
def splitColon (s : Str) : List Str := splitOnAux ':' s []

/-- `parseDuration` of src/_data/sermons.js.  The argument is the raw
`itunes:duration` field (`none` when the feed item lacks it); the JS guard
`!durationStr` catches both the absent and the empty string case.  The result
is the stored `durationSeconds` JS number, with NaN as `none`. -/
def parseDuration (durationStr : Option Str) : Option Int :=
  match durationStr with
  | none => some 0
  | some s =>
    if s = [] then some 0
    else
      match (splitColon s).map jsNumber with
      | [a, b, c] => do
          let x ← a
          let y ← b
          let z ← c
          pure (x * 3600 + y * 60 + z)
      | [a, b] => do
          let x ← a
          let y ← b
          pure (x * 60 + y)
      | _ => some 0

example : parseDuration (some (str "1:02:03")) = some 3723 := by decide
example : parseDuration (some (str "5:30")) = some 330 := by decide
example : parseDuration (some (str "a:b")) = none := by decide
example : parseDuration (some []) = some 0 := by decide

/-! The sermon entry constructor of the `feed.items.map` callback in
src/_data/sermons.js, restricted to the fields the claims are about.  Feed
fields are `Option Str` (`none` models an absent field); JS `a || b` on these
fields is `jsOr`, since the only falsy string is the empty one. -/

structure FeedItem where
  title : Option Str
  speaker : Option Str
  content : Option Str
  description : Option Str
  subtitle : Option Str
  duration : Option Str

/-- JS `field || default` for an optionally absent string field. -/
def jsOr (o : Option Str) (d : Str) : Str :=
  match o with
  | none => d
  | some s => if s = [] then d else s

/-- The scripture selection of the map callback:
`item.content || item.description || ""`. -/
def scriptureOf (item : FeedItem) : Str :=
  jsOr item.content (jsOr item.description [])

structure Sermon where
  title : Str
  speaker : Str
  scripture : Str
  scriptureNormalized : Str
  series : Str
  durationSeconds : Option Int

/-- The per-item sermon record built by the `feed.items.map` callback
(date-derived fields, audio URL, link and guid are not involved in any
claim and are omitted). -/
def mkSermon (item : FeedItem) : Sermon :=
  { title := jsOr item.title (str "Untitled Sermon")
    speaker := jsOr item.speaker (str "Unknown Speaker")
    scripture := scriptureOf item
    scriptureNormalized := normalizeScripture (scriptureOf item)
    series := jsOr item.subtitle []
    durationSeconds := parseDuration item.duration }

/-! Facet derivation: `[...new Set(xs)]` dedup and `Array.prototype.sort`. -/

/-- Accumulator recursion behind `jsSetDedup`: keep the elements not seen
before, tracking the set of elements already kept. -/
def jsSetDedupAux : List Str → List Str → List Str
  | [], _ => []
  | x :: xs, seen =>
      if seen.contains x then jsSetDedupAux xs seen
      else x :: jsSetDedupAux xs (x :: seen)

/-- `[...new Set(xs)]`: deduplicate keeping first occurrences in order. -/
def jsSetDedup (l : List Str) : List Str := jsSetDedupAux l []

/-- Character comparison by code point. -/
def cmpChar (a b : Char) : Int :=
  if a.toNat < b.toNat then -1 else if b.toNat < a.toNat then 1 else 0

/-- Model of JS `String.prototype.localeCompare` with the default locale, and
of the default (code-unit) `Array.prototype.sort` comparison: lexicographic by
code point.  On the strings this pipeline compares (ASCII book names and
speaker names where the decisive positions are digit-versus-digit,
digit-versus-uppercase-letter or same-case letters), ICU default collation,
UTF-16 code-unit order and code-point order all agree: digits order before
letters. -/
def localeCompare : Str → Str → Int
  | [], [] => 0
  | [], _ :: _ => -1
  | _ :: _, [] => 1
  | a :: as, b :: bs => if a = b then localeCompare as bs else cmpChar a b

/-- Stable insertion of `x` into a sorted list under an integer comparator:
`x` goes before the first element it compares `≤ 0` against. -/
def insertCmp (cmp : Str → Str → Int) (x : Str) : List Str → List Str
  | [] => [x]
  | y :: ys => if cmp x y ≤ 0 then x :: y :: ys else y :: insertCmp cmp x ys

/-- Stable sort by an integer comparator, modelling `Array.prototype.sort`
(stable per ES2019); for the consistent comparators evaluated here the result
is the unique stable sorted order. -/
def sortCmp (cmp : Str → Str → Int) (l : List Str) : List Str :=
  l.foldr (insertCmp cmp) []

/-- `a.match(/^(\d+)/)` reduced to the matched digit run (if any). -/
def leadingNumber (s : Str) : Option Nat :=
  match s with
  | c :: _ => if isDigit c then some (digitsToNat (s.takeWhile isDigit)) else none
  | [] => none

/-- `a.replace(/^\d+\s*/, '')`: strip a leading digit run plus following
whitespace when the string starts with a digit. -/
def stripNumPrefix (s : Str) : Str :=
  match s with
  | c :: _ => if isDigit c then (s.dropWhile isDigit).dropWhile isWS else s
  | [] => []

/-- The books comparator of src/_data/sermons.js: when both strings carry a
numeric prefix and agree on the name without it, compare the numeric prefixes;
otherwise fall back to `localeCompare` of the full strings. -/
def booksCompare (a b : Str) : Int :=
  match leadingNumber a, leadingNumber b with
  | some m, some n =>
      if stripNumPrefix a = stripNumPrefix b then (m : Int) - (n : Int)
      else localeCompare a b
  | _, _ => localeCompare a b

/-- The books facet:
`[...new Set(books.filter(Boolean))].sort(comparator)`, applied to the list of
per-sermon `book` strings. -/
def booksFacet (books : List Str) : List Str :=
  sortCmp booksCompare (jsSetDedup (books.filter (fun b => !(b == []))))

/-- The speakers facet: `[...new Set(speakers)].sort()` with the default
code-unit comparison. -/
def speakersFacet (sermons : List Sermon) : List Str :=
  sortCmp localeCompare (jsSetDedup (sermons.map (fun s => s.speaker)))

example :
    booksFacet [str "2 John", str "1 John", str "3 John", str "Acts"] =
      [str "1 John", str "2 John", str "3 John", str "Acts"] := by decide
example :
    booksFacet [str "1 John", str "1 Kings", str "2 John"] =
      [str "1 John", str "1 Kings", str "2 John"] := by decide

/-! The post-build HTML image rewriter, scripts/optimize-images.js. -/

/-- The `SKIP_PATTERNS` list `[/favicon/i, /logo/i, /icon/i]`, with each
case-insensitive regex reduced to its lowercase literal text. -/
def skipPatterns : List Str := [str "favicon", str "logo", str "icon"]

/-- Contiguous-substring test: does `needle` occur inside the second list? -/
def containsSub (needle : Str) : Str → Bool
  | [] => needle == []
  | c :: rest => needle.isPrefixOf (c :: rest) || containsSub needle rest

/-- Reversed-prefix formulation of a suffix test (JS `endsWith`). -/
def endsWith (suffix s : Str) : Bool := suffix.reverse.isPrefixOf s.reverse

/-- `SKIP_PATTERNS.some(pattern => pattern.test(src))`: a case-insensitive
substring test for each pattern. -/
def matchesSkipPattern (src : Str) : Bool :=
  skipPatterns.any (fun p => containsSub p (lower src))

/-- The dimension clause of `shouldSkipImage`:
`width && height && (width < 100 || height < 100)`.  `width` and `height`
arrive as `parseInt(attr) || null`, so each is either `null` (`none`) or a
nonzero integer; `n ≠ 0` is exactly JS numeric truthiness for the values that
can occur, NaN having already been collapsed to `null` by `|| null`. -/
def dimsBelowMin (width height : Option Int) : Bool :=
  match width, height with
  | some w, some h => !(w = 0) && !(h = 0) && (w < 100 || h < 100)
  | _, _ => false

/-- `shouldSkipImage(src, width, height)` of scripts/optimize-images.js. -/
def shouldSkipImage (src : Str) (width height : Option Int) : Bool :=
  if matchesSkipPattern src then true
  else if dimsBelowMin width height then true
  else if endsWith (str ".svg") src then true
  else if (str "http://").isPrefixOf src || (str "https://").isPrefixOf src then true
  else false

/-- The `SITE_DIR` constant. -/
def siteDir : Str := str "_site"

/-- Model of `path.join(a, b)` for the argument shapes that occur here: the
segments are concatenated with exactly one separating slash (`path.join`
collapses the doubled slash when `b` is absolute-rooted); no `..` or `.`
segments occur. -/
def pathJoin (a b : Str) : Str :=
  a ++ (if b.head? = some '/' then b else '/' :: b)

/-- Model of `path.dirname` for the slash-containing relative paths that occur
here: everything before the last slash, or `.` when there is no slash. -/
def dirname (p : Str) : Str :=
  if p.contains '/' then ((p.reverse.dropWhile (fun c => !(c = '/'))).tail).reverse
  else str "."

/-- `getImagePath(src, htmlFilePath)` of scripts/optimize-images.js, as
written.  The `fsAccessOk` oracle tells whether `fs.access` would succeed on a
path, but the code never awaits it: the JS condition is
`fs.access(p).then(() => true).catch(() => false)`, a Promise object, and any
Promise object is truthy — `promiseTruthy` records that constant.  The
absolute-rooted branch therefore always resolves against `_site`. -/
def promiseTruthy : Bool := true

def getImagePath (_fsAccessOk : Str → Bool) (src htmlFilePath : Str) : Str :=
  if src.head? = some '/' then
    let siteImagePath := pathJoin siteDir src
    if promiseTruthy then siteImagePath
    else pathJoin (str "src") src
  else pathJoin (dirname htmlFilePath) src

/-- Modelled from the spec: the resolution rule `getImagePath` was intended to
implement — absolute-rooted paths resolve against the generation output root
when a file exists there and otherwise fall back to the original source tree;
relative paths resolve against the containing HTML file's directory.  Kept
separate from `getImagePath` (the code as written) for comparison. -/
def getImagePathSpec (fsAccessOk : Str → Bool) (src htmlFilePath : Str) : Str :=
  if src.head? = some '/' then
    let siteImagePath := pathJoin siteDir src
    if fsAccessOk siteImagePath then siteImagePath
    else pathJoin (str "src") src
  else pathJoin (dirname htmlFilePath) src

/-- One `<img>` element as seen by `processHtmlFile`: its `src`, `width` and
`height` attributes (absent is `none`), and whether `processImage` would
return metadata for it (`processOk` is the oracle for the external encode:
`false` models a missing source file or encoder error, where `processImage`
returns null). -/
structure ImgTag where
  src : Option Str
  width : Option Str
  height : Option Str
  processOk : Bool

/-- `parseInt($img.attr(name)) || null`: `parseInt` of an absent attribute is
NaN, and `|| null` collapses both NaN and 0 to null. -/
def intAttr (a : Option Str) : Option Int :=
  match a with
  | none => none
  | some s =>
      match jsParseInt s with
      | none => none
      | some n => if n = 0 then none else some n

/-- Whether the loop body of `processHtmlFile` reaches the replace-and-count
branch for an image: a truthy `src`, not skipped, and metadata produced. -/
def imgProcessed (i : ImgTag) : Bool :=
  match i.src with
  | none => false
  | some s =>
      !(s = []) &&
      !(shouldSkipImage s (intAttr i.width) (intAttr i.height)) &&
      i.processOk

/-- `processHtmlFile` of scripts/optimize-images.js at the file level: given
the file's current bytes, its `<img>` elements and the serialized rewritten
DOM (`$.html()`, abstract here), return the resulting on-disk bytes and
whether `fs.writeFile` ran.  The write happens only when `processedCount > 0`;
a file with no `<img>` at all returns before counting. -/
def processHtmlFile (html : Str) (imgs : List ImgTag) (rewrittenHtml : Str) :
    Str × Bool :=
  if imgs.length = 0 then (html, false)
  else if 0 < (imgs.filter imgProcessed).length then (rewrittenHtml, true)
  else (html, false)

/-! The calendar feed ingestor (the 11ty data file for calendar events):
expansion of a recurring VEVENT over the 7-day lookahead window.  Times are
JS epoch milliseconds (`Int`).  The `rrule.between(now, sevenDaysFromNow,
true)` library call is modelled by filtering the rule's occurrence start
times — with the inclusive flag set, `between` returns exactly the occurrences
lying in the closed interval. -/

structure VEvent where
  startTime : Int
  endTime : Option Int
  occurrences : List Int

/-- `rrule.between(after, before, true)` over the rule's occurrence starts. -/
def rruleBetween (occs : List Int) (after before : Int) : List Int :=
  occs.filter (fun d => decide (after ≤ d) && decide (d ≤ before))

/-- Milliseconds in 7 days: `7 * 24 * 60 * 60 * 1000`. -/
def sevenDaysMs : Int := 7 * 24 * 60 * 60 * 1000

/-- The recurring-event branch of the calendar ingestor: for each occurrence
start within `[now, now + 7 days]`, emit `(start, start + duration)` where the
duration is `event.end.getTime() - event.start.getTime()` when the definition
has an end time and 0 otherwise. -/
def expandRecurring (now : Int) (e : VEvent) : List (Int × Int) :=
  (rruleBetween e.occurrences now (now + sevenDaysMs)).map
    (fun d => (d, d + (match e.endTime with
                       | some en => en - e.startTime
                       | none => 0)))

/-! General lemmas about the character-list string primitives. -/

lemma head?_dropWhile_false (p : Char → Bool) (l : Str) (a : Char)
    (h : (l.dropWhile p).head? = some a) : p a = false := by
  induction l with
  | nil => cases h
  | cons c cs ih =>
    rw [List.dropWhile_cons] at h
    by_cases hc : p c = true
    · exact ih (by rwa [if_pos hc] at h)
    · rw [if_neg hc] at h
      cases h
      exact Bool.not_eq_true _ |>.mp hc

lemma dropWhile_head?_eq_self (p : Char → Bool) (l : Str)
    (h : ∀ a, l.head? = some a → p a = false) : l.dropWhile p = l := by
  cases l with
  | nil => rfl
  | cons c cs =>
    rw [List.dropWhile_cons, if_neg]
    rw [h c rfl]
    simp

lemma getLast?_dropWhile_some (p : Char → Bool) (l : Str) (a : Char)
    (h : (l.dropWhile p).getLast? = some a) : l.getLast? = some a := by
  induction l with
  | nil => cases h
  | cons c cs ih =>
    rw [List.dropWhile_cons] at h
    by_cases hc : p c = true
    · rw [if_pos hc] at h
      have hcs := ih h
      cases cs with
      | nil => cases hcs
      | cons d ds => rw [List.getLast?_cons_cons]; exact hcs
    · rwa [if_neg hc] at h

lemma trim_eq_self_of_ends (s : Str)
    (h1 : ∀ a, s.head? = some a → isWS a = false)
    (h2 : ∀ a, s.reverse.head? = some a → isWS a = false) : trim s = s := by
  unfold trim trimLeft
  rw [dropWhile_head?_eq_self isWS s h1, dropWhile_head?_eq_self isWS s.reverse h2,
    List.reverse_reverse]

lemma head?_trim_false (s : Str) (a : Char) (h : (trim s).head? = some a) :
    isWS a = false := by
  unfold trim trimLeft at h
  rw [List.head?_reverse] at h
  have h2 := getLast?_dropWhile_some isWS _ _ h
  rw [List.getLast?_reverse] at h2
  exact head?_dropWhile_false isWS _ _ h2

lemma head?_reverse_trim_false (s : Str) (a : Char)
    (h : (trim s).reverse.head? = some a) : isWS a = false := by
  unfold trim trimLeft at h
  rw [List.reverse_reverse] at h
  exact head?_dropWhile_false isWS _ _ h

lemma trim_trim (s : Str) : trim (trim s) = trim s :=
  trim_eq_self_of_ends (trim s) (head?_trim_false s) (head?_reverse_trim_false s)

lemma trim_cons_ws (a : Char) (r : Str) (h : isWS a = true) :
    trim (a :: r) = trim r := by
  unfold trim trimLeft
  rw [List.dropWhile_cons, if_pos h]

lemma trim_nil : trim [] = [] := rfl

lemma head?_append_left (l₁ l₂ : Str) (h : ¬ l₁ = []) :
    (l₁ ++ l₂).head? = l₁.head? := by
  cases l₁ with
  | nil => exact absurd rfl h
  | cons a t => rfl

lemma trim_eq_self_of_all_not_ws (s : Str) (h : ∀ c ∈ s, isWS c = false) :
    trim s = s := by
  refine trim_eq_self_of_ends s (fun a ha => ?_) (fun a ha => ?_)
  · exact h a (List.mem_of_mem_head? ha)
  · exact h a (List.mem_reverse.mp (List.mem_of_mem_head? ha))

/-! Machinery for the normalizer idempotence proof.  The key point is that for
every canonical name `c` in the table, any string of the form
`lower c ++ " " ++ s` (or `lower c` itself) is matched by exactly the table
entry whose key is `lower c`, because every entry located before that one has
a key that is prefix-incomparable with `lower c` once both are padded with a
trailing space.  That incomparability is a decidable per-entry condition
checked over the whole table by `tableOk`. -/

lemma isPrefixOf_eq_true_iff (l₁ l₂ : Str) : l₁.isPrefixOf l₂ = true ↔ l₁ <+: l₂ :=
  List.isPrefixOf_iff_prefix

lemma prefix_total (l₁ l₂ l₃ : Str) (h1 : l₁ <+: l₃) (h2 : l₂ <+: l₃) :
    l₁ <+: l₂ ∨ l₂ <+: l₁ :=
  List.prefix_or_prefix_of_prefix h1 h2

/-- Keys `x` and `y`, each padded with a trailing space, are not prefixes of
one another. -/
def incompSpaced (x y : Str) : Bool :=
  !((x ++ [' ']).isPrefixOf (y ++ [' '])) && !((y ++ [' ']).isPrefixOf (x ++ [' ']))

/-- Scanning the table for key `k`: every entry before the first entry with
key `k` must be space-padded-incomparable with `k`, and that first entry must
carry value `c`. -/
def stableAux (k c : Str) : List (Str × Str) → Bool
  | [] => false
  | vc :: rest =>
      if vc.1 == k then vc.2 == c
      else incompSpaced vc.1 k && stableAux k c rest

/-- Inputs of the shape produced by a successful normalization of canonical
prefix `k`: either exactly `k` or `k` followed by a space and a remainder. -/
def CanonicalShape (k lt : Str) : Prop :=
  lt = k ∨ ∃ s, lt = k ++ ' ' :: s

lemma append_singleton_cons (k : Str) (s : Str) : k ++ ' ' :: s = (k ++ [' ']) ++ s := by
  simp

lemma matchVariant_false_of_incomp (k lt : Str) (hlt : CanonicalShape k lt)
    (vc : Str × Str) (h : incompSpaced vc.1 k = true) : matchVariant lt vc = false := by
  have h1 : ¬ (vc.1 ++ [' ']) <+: (k ++ [' ']) := by
    have hb := (Bool.and_eq_true _ _).mp h |>.1
    rw [Bool.not_eq_true', ← Bool.not_eq_true] at hb
    exact fun hp => hb ((isPrefixOf_eq_true_iff _ _).mpr hp)
  have h2 : ¬ (k ++ [' ']) <+: (vc.1 ++ [' ']) := by
    have hb := (Bool.and_eq_true _ _).mp h |>.2
    rw [Bool.not_eq_true', ← Bool.not_eq_true] at hb
    exact fun hp => hb ((isPrefixOf_eq_true_iff _ _).mpr hp)
  rw [matchVariant, Bool.or_eq_false_iff]
  constructor
  · rw [Bool.eq_false_iff]
    intro hp
    have hp2 := (isPrefixOf_eq_true_iff _ _).mp hp
    rcases hlt with he | ⟨s, he⟩
    · subst he
      exact h1 (hp2.trans (List.prefix_append lt [' ']))
    · subst he
      have hs : k ++ ' ' :: s = (k ++ [' ']) ++ s := append_singleton_cons k s
      rw [hs] at hp2
      have hk : (k ++ [' ']) <+: (k ++ [' ']) ++ s := List.prefix_append _ _
      have hor := prefix_total _ _ _ hp2 hk
      rcases hor with hc | hc
      · exact h1 hc
      · exact h2 hc
  · rw [Bool.eq_false_iff]
    intro he
    have he2 : lt = vc.1 := eq_of_beq he
    rcases hlt with hq | ⟨s, hq⟩
    · subst hq
      exact h1 (he2 ▸ List.prefix_rfl)
    · subst hq
      apply h2
      have hpre : (k ++ [' ']) <+: vc.1 := by
        rw [← he2, append_singleton_cons k s]
        exact List.prefix_append _ _
      exact hpre.trans (List.prefix_append vc.1 [' '])

lemma matchVariant_true_of_self (k lt : Str) (hlt : CanonicalShape k lt)
    (vc : Str × Str) (hv : vc.1 = k) : matchVariant lt vc = true := by
  rw [matchVariant, Bool.or_eq_true]
  rcases hlt with he | ⟨s, he⟩
  · subst he
    right
    rw [hv]
    exact beq_self_eq_true lt
  · subst he
    left
    rw [hv, isPrefixOf_eq_true_iff, append_singleton_cons k s]
    exact List.prefix_append _ _

lemma find?_stableAux (k c : Str) (l : List (Str × Str)) (h : stableAux k c l = true)
    (lt : Str) (hlt : CanonicalShape k lt) :
    l.find? (matchVariant lt) = some (k, c) := by
  induction l with
  | nil => cases h
  | cons vc rest ih =>
    rw [stableAux] at h
    by_cases hk : (vc.1 == k) = true
    · rw [if_pos hk] at h
      have h1 : vc.1 = k := eq_of_beq hk
      have h2 : vc.2 = c := eq_of_beq h
      have hvc : vc = (k, c) := Prod.ext h1 h2
      rw [List.find?_cons_of_pos rest (matchVariant_true_of_self k lt hlt vc h1)]
      rw [hvc]
    · rw [if_neg hk] at h
      obtain ⟨hinc, hrest⟩ := (Bool.and_eq_true _ _).mp h
      rw [List.find?_cons_of_neg rest
        (by rw [matchVariant_false_of_incomp k lt hlt vc hinc]; simp)]
      exact ih hrest

/-- Per-entry side conditions for idempotence: the canonical name is nonempty
with a non-whitespace head, is its own trim, and its lowercase form is found
first in the table (with value the canonical name itself) on any input it
prefixes. -/
def entryOk (vc : Str × Str) : Bool :=
  (match vc.2.head? with
   | some c0 => !(isWS c0)
   | none => false) &&
  (trim vc.2 == vc.2) &&
  stableAux (lower vc.2) vc.2 bookNormalization

/-- The per-entry conditions hold across the whole table. -/
def tableOk : Bool := bookNormalization.all entryOk

set_option maxRecDepth 100000 in
lemma tableOk_eq_true : tableOk = true := by decide

lemma headNotWS_of_entry (c : Str)
    (h : (match c.head? with | some c0 => !(isWS c0) | none => false) = true) :
    (¬ c = []) ∧ ∀ a, c.head? = some a → isWS a = false := by
  cases c with
  | nil => cases h
  | cons c0 cs =>
    refine ⟨by simp, ?_⟩
    intro a ha
    have ha2 : c0 = a := Option.some.inj ha
    subst ha2
    simpa using h

lemma normalizeScripture_of_ne (t : Str) (h : ¬ t = []) :
    normalizeScripture t =
      (match bookNormalization.find? (matchVariant (lower (trim t))) with
       | some vc => vc.2 ++ (if trim ((trim t).drop vc.1.length) = [] then []
                             else ' ' :: trim ((trim t).drop vc.1.length))
       | none => trim t) := by
  unfold normalizeScripture
  rw [if_neg h]

lemma normalize_canonical_append (c r : Str)
    (hhead : ∀ a, c.head? = some a → isWS a = false) (hcne : ¬ c = [])
    (htrimc : trim c = c) (hstable : stableAux (lower c) c bookNormalization = true)
    (hrtrim : trim r = r) (hrhead : ∀ a, r.reverse.head? = some a → isWS a = false) :
    normalizeScripture (c ++ (if r = [] then [] else ' ' :: r)) =
      c ++ (if r = [] then [] else ' ' :: r) := by
  by_cases hrnil : r = []
  · rw [if_pos hrnil, List.append_nil]
    rw [normalizeScripture_of_ne c hcne, htrimc]
    rw [find?_stableAux (lower c) c _ hstable (lower c) (Or.inl rfl)]
    show c ++ (if trim (c.drop (lower c).length) = [] then []
               else ' ' :: trim (c.drop (lower c).length)) = c
    have hdrop : c.drop (lower c).length = [] := by
      rw [lower, List.length_map]
      exact List.drop_length c
    rw [hdrop, trim_nil, if_pos rfl, List.append_nil]
  · rw [if_neg hrnil]
    have houtne : ¬ (c ++ ' ' :: r) = [] := by cases c <;> simp
    rw [normalizeScripture_of_ne _ houtne]
    have htrimout : trim (c ++ ' ' :: r) = c ++ ' ' :: r := by
      refine trim_eq_self_of_ends _ ?_ ?_
      · intro a ha
        rw [head?_append_left c (' ' :: r) hcne] at ha
        exact hhead a ha
      · intro a ha
        rw [List.reverse_append] at ha
        have hrrev : ¬ (' ' :: r).reverse = [] := by simp
        rw [head?_append_left _ _ hrrev, List.reverse_cons] at ha
        have hrne : ¬ r.reverse = [] := by simpa using hrnil
        rw [head?_append_left _ _ hrne] at ha
        exact hrhead a ha
    rw [htrimout]
    have hlowsp : Char.toLower ' ' = ' ' := by decide
    have hlow : lower (c ++ ' ' :: r) = lower c ++ ' ' :: lower r := by
      rw [lower, List.map_append, List.map_cons, hlowsp]
      rfl
    rw [hlow, find?_stableAux (lower c) c _ hstable _ (Or.inr ⟨lower r, rfl⟩)]
    show c ++ (if trim ((c ++ ' ' :: r).drop (lower c).length) = [] then []
               else ' ' :: trim ((c ++ ' ' :: r).drop (lower c).length)) = c ++ ' ' :: r
    have hdrop : (c ++ ' ' :: r).drop (lower c).length = ' ' :: r := by
      rw [lower, List.length_map]
      exact List.drop_left c (' ' :: r)
    rw [hdrop, trim_cons_ws ' ' r (by decide), hrtrim, if_neg hrnil]

/-- Idempotence of the normalizer: a second pass over any normalized string is
the identity. -/
lemma normalizeScripture_idem (t : Str) :
    normalizeScripture (normalizeScripture t) = normalizeScripture t := by
  by_cases ht : t = []
  · rw [ht]
    rfl
  · rw [normalizeScripture_of_ne t ht]
    cases hf : bookNormalization.find? (matchVariant (lower (trim t))) with
    | none =>
      show normalizeScripture (trim t) = trim t
      by_cases h2 : trim t = []
      · rw [h2]
        rfl
      · rw [normalizeScripture_of_ne (trim t) h2, trim_trim, hf]
    | some vc =>
      have hmem := List.mem_of_find?_eq_some hf
      have hok := List.all_eq_true.mp tableOk_eq_true vc hmem
      simp only [entryOk, Bool.and_eq_true] at hok
      obtain ⟨⟨hhead0, htrimb⟩, hstable⟩ := hok
      have hc := headNotWS_of_entry vc.2 hhead0
      have htrimc : trim vc.2 = vc.2 := eq_of_beq htrimb
      exact normalize_canonical_append vc.2 (trim ((trim t).drop vc.1.length))
        hc.2 hc.1 htrimc hstable (trim_trim _)
        (fun a ha => head?_reverse_trim_false _ a ha)

/-- Boolean form of the alias-mapping property over the whole table. -/
def aliasCheck : Bool :=
  bookNormalization.all
    (fun vc => normalizeScripture (vc.1 ++ str " 3:16") == vc.2 ++ str " 3:16")

set_option maxRecDepth 100000 in
lemma aliasCheck_eq_true : aliasCheck = true := by decide

lemma alias_maps (vc : Str × Str) (h : vc ∈ bookNormalization) :
    normalizeScripture (vc.1 ++ str " 3:16") = vc.2 ++ str " 3:16" :=
  eq_of_beq (List.all_eq_true.mp aliasCheck_eq_true vc h)

/-- C6: every alias `a ↦ c` of the normalization table sends `a ++ " 3:16"` to
`c ++ " 3:16"`, and the normalizer is idempotent on every input. -/
theorem C6_alias_and_idempotent :
    (∀ vc ∈ bookNormalization,
      normalizeScripture (vc.1 ++ str " 3:16") = vc.2 ++ str " 3:16") ∧
    (∀ t : Str, normalizeScripture (normalizeScripture t) = normalizeScripture t) :=
  ⟨alias_maps, normalizeScripture_idem⟩

/-- Witness for C6 at the concrete alias `gen ↦ Genesis`. -/
theorem C6_witness :
    normalizeScripture (str "gen" ++ str " 3:16") = str "Genesis" ++ str " 3:16" :=
  C6_alias_and_idempotent.1 (str "gen", str "Genesis") (by decide)

/-- C5 counterexample: the input `" Zorp 9 "` matches no alias, yet the
normalizer does not return it unchanged — it returns the trimmed string. -/
theorem C5_counterexample :
    bookNormalization.find? (matchVariant (lower (trim (str " Zorp 9 ")))) = none ∧
    ¬ normalizeScripture (str " Zorp 9 ") = str " Zorp 9 " := by
  constructor
  · decide
  · decide

/-- C5 as amended: on a string matching no alias the normalizer returns the
trimmed input (hence the input itself exactly when it carries no surrounding
whitespace), and the empty or absent input yields the empty string. -/
theorem C5_no_match_trims :
    (∀ s : Str, bookNormalization.find? (matchVariant (lower (trim s))) = none →
      normalizeScripture s = trim s) ∧
    normalizeScripture [] = [] ∧ normalizeScriptureOpt none = [] := by
  refine ⟨?_, rfl, rfl⟩
  intro s h
  by_cases hs : s = []
  · rw [hs]
    rfl
  · rw [normalizeScripture_of_ne s hs, h]

/-- Witness for C5: a no-match input evaluates to its trim. -/
theorem C5_witness :
    normalizeScripture (str " Quux 7 ") = trim (str " Quux 7 ") :=
  C5_no_match_trims.1 (str " Quux 7 ") (by decide)

/-- C1 counterexample: the books facet of
`["2 John", "1 John", "3 John", "Acts"]` is not the spec's
`["Acts", "1 John", "2 John", "3 John"]` — under the code's comparator the
fallback `localeCompare` on full strings puts digit-prefixed names first. -/
theorem C1_counterexample :
    ¬ booksFacet [str "2 John", str "1 John", str "3 John", str "Acts"] =
      [str "Acts", str "1 John", str "2 John", str "3 John"] := by
  decide

/-- C1 as amended: the facet for that input is
`["1 John", "2 John", "3 John", "Acts"]`, and the numeric-prefix rule applies
only between two books that both carry numeric prefixes and share the stripped
base name, in which case the comparator is the difference of the prefixes. -/
theorem C1_books_facet_order :
    booksFacet [str "2 John", str "1 John", str "3 John", str "Acts"] =
      [str "1 John", str "2 John", str "3 John", str "Acts"] ∧
    ∀ (a b : Str) (m n : Nat), leadingNumber a = some m → leadingNumber b = some n →
      stripNumPrefix a = stripNumPrefix b →
      booksCompare a b = (m : Int) - (n : Int) := by
  constructor
  · decide
  · intro a b m n hm hn hname
    rw [booksCompare, hm, hn]
    show (if stripNumPrefix a = stripNumPrefix b then ((m : Int) - (n : Int))
          else localeCompare a b) = (m : Int) - (n : Int)
    rw [if_pos hname]

/-- Witness for C1 at the numeric-prefixed pair `1 John`, `2 John`. -/
theorem C1_witness :
    booksCompare (str "1 John") (str "2 John") = (1 : Int) - (2 : Int) :=
  C1_books_facet_order.2 (str "1 John") (str "2 John") 1 2 (by decide) (by decide)
    (by decide)

/-- C2 counterexample: an item whose `content` field is absent but whose
`description` is `"Psalm 23"` stores that description as its scripture, so the
scripture is not always taken from the content field. -/
theorem C2_counterexample :
    scriptureOf { title := none, speaker := none, content := none,
                  description := some (str "Psalm 23"), subtitle := none,
                  duration := none } = str "Psalm 23" ∧
    ¬ scriptureOf { title := none, speaker := none, content := none,
                    description := some (str "Psalm 23"), subtitle := none,
                    duration := none } =
      jsOr (none : Option Str) [] := by
  constructor
  · rfl
  · decide

/-- C2 as amended: the scripture is the content field whenever that field is
present and nonempty; when the content field is absent or empty the code falls
back to the description field (and then to the empty string). -/
theorem C2_scripture_source :
    ∀ item : FeedItem,
      (∀ s : Str, item.content = some s → ¬ s = [] → scriptureOf item = s) ∧
      ((item.content = none ∨ item.content = some []) →
        scriptureOf item = jsOr item.description []) := by
  intro item
  constructor
  · intro s hc hs
    rw [scriptureOf, hc, jsOr, if_neg hs]
  · intro h
    rcases h with hc | hc
    · rw [scriptureOf, hc]
      rfl
    · rw [scriptureOf, hc]
      rfl

/-- Witness for C2: a present nonempty content field is stored verbatim. -/
theorem C2_witness :
    scriptureOf { title := none, speaker := none,
                  content := some (str "John 3:16"),
                  description := some (str "unrelated blurb"), subtitle := none,
                  duration := none } = str "John 3:16" :=
  (C2_scripture_source _).1 (str "John 3:16") rfl (by decide)

/-- C3: the code bug in `getImagePath`.  The absolute-rooted branch tests a
Promise object, which is always truthy, so the code always resolves against
the `_site` output root even when the file is absent there; the spec-modelled
resolution falls back to the `src` tree.  The third conjunct shows no
existence oracle whatsoever can change the code's answer. -/
theorem C3_fallback_dead :
    getImagePath (fun _ => false) (str "/images/photo.jpg")
        (str "_site/about/index.html") = str "_site/images/photo.jpg" ∧
    getImagePathSpec (fun _ => false) (str "/images/photo.jpg")
        (str "_site/about/index.html") = str "src/images/photo.jpg" ∧
    ∀ oracle : Str → Bool,
      getImagePath oracle (str "/images/photo.jpg")
        (str "_site/about/index.html") = str "_site/images/photo.jpg" := by
  refine ⟨by decide, by decide, ?_⟩
  intro oracle
  rfl

/-! Lemmas for the duration parser. -/

lemma splitOnAux_no_sep (sep : Char) (l : Str) :
    ∀ acc : Str, (∀ c ∈ l, ¬ c = sep) → splitOnAux sep l acc = [acc.reverse ++ l] := by
  induction l with
  | nil =>
    intro acc h
    simp only [splitOnAux, List.append_nil]
  | cons c cs ih =>
    intro acc h
    simp only [splitOnAux, if_neg (h c (List.mem_cons_self c cs))]
    rw [ih (c :: acc) (fun d hd => h d (List.mem_cons_of_mem c hd))]
    simp

lemma splitOnAux_sep (sep : Char) (l t : Str) :
    ∀ acc : Str, (∀ c ∈ l, ¬ c = sep) →
      splitOnAux sep (l ++ sep :: t) acc = (acc.reverse ++ l) :: splitOnAux sep t [] := by
  induction l with
  | nil =>
    intro acc h
    simp [splitOnAux]
  | cons c cs ih =>
    intro acc h
    simp only [List.cons_append, splitOnAux,
      if_neg (h c (List.mem_cons_self c cs)), List.append_eq]
    rw [ih (c :: acc) (fun d hd => h d (List.mem_cons_of_mem c hd))]
    simp

lemma splitColon_three (hh mm ss : Str) (h1 : ∀ c ∈ hh, ¬ c = ':')
    (h2 : ∀ c ∈ mm, ¬ c = ':') (h3 : ∀ c ∈ ss, ¬ c = ':') :
    splitColon (hh ++ ':' :: (mm ++ ':' :: ss)) = [hh, mm, ss] := by
  rw [splitColon, splitOnAux_sep ':' hh (mm ++ ':' :: ss) [] h1,
    splitOnAux_sep ':' mm ss [] h2, splitOnAux_no_sep ':' ss [] h3]
  simp

lemma splitColon_two (mm ss : Str) (h2 : ∀ c ∈ mm, ¬ c = ':')
    (h3 : ∀ c ∈ ss, ¬ c = ':') :
    splitColon (mm ++ ':' :: ss) = [mm, ss] := by
  rw [splitColon, splitOnAux_sep ':' mm ss [] h2, splitOnAux_no_sep ':' ss [] h3]
  simp

lemma isDigit_not_ws (c : Char) (h : isDigit c = true) : isWS c = false := by
  rw [isDigit, Bool.and_eq_true, decide_eq_true_eq, decide_eq_true_eq] at h
  rw [isWS]
  simp only [Bool.or_eq_false_iff, decide_eq_false_iff_not]
  refine ⟨⟨⟨?_, ?_⟩, ?_⟩, ?_⟩ <;>
    · rintro rfl
      exact absurd h.1 (by decide)

lemma isDigit_ne (c x : Char) (h : isDigit c = true) (hx : isDigit x = false) :
    ¬ c = x := by
  intro he
  rw [he, hx] at h
  cases h

lemma isDigits_of (s : Str) (h1 : ¬ s = []) (h2 : ∀ c ∈ s, isDigit c = true) :
    isDigits s = true := by
  rw [isDigits, Bool.and_eq_true]
  constructor
  · simpa using h1
  · exact List.all_eq_true.mpr h2

lemma jsNumber_digits (s : Str) (h1 : ¬ s = []) (h2 : ∀ c ∈ s, isDigit c = true) :
    jsNumber s = some ((digitsToNat s : Int)) := by
  have ht : trim s = s :=
    trim_eq_self_of_all_not_ws s (fun c hc => isDigit_not_ws c (h2 c hc))
  rw [jsNumber, ht]
  cases s with
  | nil => exact absurd rfl h1
  | cons c cs =>
    have hc := h2 c (List.mem_cons_self c cs)
    simp only [jsNumberTrimmed]
    rw [if_neg (isDigit_ne c '-' hc (by decide)),
      if_neg (isDigit_ne c '+' hc (by decide)),
      if_pos (isDigits_of (c :: cs) (by simp) h2)]

/-- Nonempty all-digit strings. -/
def DigitStr (s : Str) : Prop := (¬ s = []) ∧ ∀ c ∈ s, isDigit c = true

instance (s : Str) : Decidable (DigitStr s) := by
  unfold DigitStr
  infer_instance

/-- C4 counterexample: a two-part duration with non-numeric components parses
to NaN (`none`), not to zero. -/
theorem C4_counterexample : ¬ parseDuration (some (str "a:b")) = some 0 := by
  decide

/-- The `return 0` fallback of `parseDuration`: a nonempty duration whose
colon-split has neither 2 nor 3 parts falls through both patterns and yields
zero. -/
lemma parseDuration_wrong_shape (s : Str) (hs : ¬ s = [])
    (h2 : ¬ (splitColon s).length = 2) (h3 : ¬ (splitColon s).length = 3) :
    parseDuration (some s) = some 0 := by
  simp only [parseDuration]
  rw [if_neg hs]
  generalize hsp : splitColon s = l
  rw [hsp] at h2 h3
  rcases l with _ | ⟨a, _ | ⟨b, _ | ⟨c, _ | ⟨d, t⟩⟩⟩⟩
  · rfl
  · rfl
  · simp at h2
  · simp at h3
  · rfl

/-- C4 as amended: well-formed `H:MM:SS` and `MM:SS` durations with numeric
components parse to total seconds (in particular the spec's two examples);
absent, empty and wrongly-shaped durations (whose colon-split has neither 2
nor 3 parts, e.g. `90` or `1:2:3:4`) yield 0; but a 2- or 3-part string with a
non-numeric component yields NaN rather than 0. -/
theorem C4_duration_parsing :
    (∀ hh mm ss : Str, DigitStr hh → DigitStr mm → DigitStr ss →
      parseDuration (some (hh ++ ':' :: (mm ++ ':' :: ss))) =
        some ((digitsToNat hh : Int) * 3600 + (digitsToNat mm : Int) * 60 +
          (digitsToNat ss : Int))) ∧
    (∀ mm ss : Str, DigitStr mm → DigitStr ss →
      parseDuration (some (mm ++ ':' :: ss)) =
        some ((digitsToNat mm : Int) * 60 + (digitsToNat ss : Int))) ∧
    (∀ s : Str, ¬ s = [] → ¬ (splitColon s).length = 2 →
      ¬ (splitColon s).length = 3 → parseDuration (some s) = some 0) ∧
    parseDuration none = some 0 ∧
    parseDuration (some []) = some 0 ∧
    parseDuration (some (str "90")) = some 0 ∧
    parseDuration (some (str "1:2:3:4")) = some 0 ∧
    parseDuration (some (str "1:02:03")) = some 3723 ∧
    parseDuration (some (str "5:30")) = some 330 ∧
    parseDuration (some (str "a:b")) = none := by
  refine ⟨?_, ?_, parseDuration_wrong_shape, rfl, by decide, by decide, by decide,
    by decide, by decide, by decide⟩
  · rintro hh mm ss ⟨h1n, h1d⟩ ⟨h2n, h2d⟩ ⟨h3n, h3d⟩
    have hs : ¬ (hh ++ ':' :: (mm ++ ':' :: ss)) = [] := by cases hh <;> simp
    simp only [parseDuration]
    rw [if_neg hs,
      splitColon_three hh mm ss (fun c hc => isDigit_ne c ':' (h1d c hc) (by decide))
        (fun c hc => isDigit_ne c ':' (h2d c hc) (by decide))
        (fun c hc => isDigit_ne c ':' (h3d c hc) (by decide)),
      List.map_cons, List.map_cons, List.map_cons, List.map_nil,
      jsNumber_digits hh h1n h1d, jsNumber_digits mm h2n h2d,
      jsNumber_digits ss h3n h3d]
    rfl
  · rintro mm ss ⟨h2n, h2d⟩ ⟨h3n, h3d⟩
    have hs : ¬ (mm ++ ':' :: ss) = [] := by cases mm <;> simp
    simp only [parseDuration]
    rw [if_neg hs,
      splitColon_two mm ss (fun c hc => isDigit_ne c ':' (h2d c hc) (by decide))
        (fun c hc => isDigit_ne c ':' (h3d c hc) (by decide)),
      List.map_cons, List.map_cons, List.map_nil,
      jsNumber_digits mm h2n h2d, jsNumber_digits ss h3n h3d]
    rfl

/-- Witness for C4: the spec's `1:02:03` example through the general `H:MM:SS`
case, and a one-part duration through the general wrong-shape case. -/
theorem C4_witness :
    parseDuration (some (str "1:02:03")) = some 3723 ∧
    parseDuration (some (str "90")) = some 0 := by
  constructor
  · have h := C4_duration_parsing.1 (str "1") (str "02") (str "03")
      (by decide) (by decide) (by decide)
    have he : str "1" ++ ':' :: (str "02" ++ ':' :: str "03") = str "1:02:03" := by
      decide
    rw [he] at h
    rw [h]
    decide
  · exact C4_duration_parsing.2.2.1 (str "90") (by decide) (by decide) (by decide)

/-- C7: for a recurring definition with an end time, the expansion
materializes exactly the occurrence starts inside the closed window
`[now, now + 7 days]`, each paired with an end equal to its start plus the
original definition's duration. -/
theorem C7_recurring_expansion :
    ∀ (now : Int) (e : VEvent) (en : Int), e.endTime = some en →
      ∀ s f : Int,
        ((s, f) ∈ expandRecurring now e ↔
          (s ∈ e.occurrences ∧ now ≤ s ∧ s ≤ now + sevenDaysMs ∧
            f = s + (en - e.startTime))) := by
  intro now e en he s f
  rw [expandRecurring, he]
  simp only [rruleBetween, List.mem_map, List.mem_filter, Bool.and_eq_true,
    decide_eq_true_eq]
  constructor
  · rintro ⟨d, ⟨hd, hb1, hb2⟩, heq⟩
    injection heq with hq1 hq2
    subst hq1
    subst hq2
    exact ⟨hd, hb1, hb2, rfl⟩
  · rintro ⟨hd, hb1, hb2, rfl⟩
    exact ⟨s, ⟨hd, hb1, hb2⟩, rfl⟩

/-- Witness for C7: a weekly event starting one hour before the build with a
one-hour duration; the occurrence at the window's upper boundary is
materialized with its end one hour after its start. -/
theorem C7_witness :
    (604800000, 604800000 + 3600000) ∈
      expandRecurring 0
        { startTime := -3600000, endTime := some 0,
          occurrences := [-3600000, 82800000, 604800000, 691200000] } :=
  (C7_recurring_expansion 0
    { startTime := -3600000, endTime := some 0,
      occurrences := [-3600000, 82800000, 604800000, 691200000] }
    0 rfl 604800000 (604800000 + 3600000)).mpr (by decide)

/-- C8: the skip policy fires on logo/icon/favicon path patterns (independent
of declared dimensions), on images whose declared dimensions fall below 100 on
either axis, on vector (`.svg`) paths, and on absolute external http(s)
URLs. -/
theorem C8_skip_policy :
    ∀ (src : Str) (w h : Option Int),
      (matchesSkipPattern src = true → shouldSkipImage src w h = true) ∧
      (∀ a b : Int, w = some a → h = some b → ¬ a = 0 → ¬ b = 0 →
        (a < 100 ∨ b < 100) → shouldSkipImage src w h = true) ∧
      (endsWith (str ".svg") src = true → shouldSkipImage src w h = true) ∧
      ((str "http://").isPrefixOf src = true ∨
          (str "https://").isPrefixOf src = true →
        shouldSkipImage src w h = true) := by
  intro src w h
  refine ⟨?_, ?_, ?_, ?_⟩
  · intro hm
    rw [shouldSkipImage, if_pos hm]
  · rintro a b rfl rfl ha hb hlt
    have hcond : dimsBelowMin (some a) (some b) = true := by
      simp only [dimsBelowMin, Bool.and_eq_true, Bool.not_eq_true',
        decide_eq_false_iff_not, Bool.or_eq_true, decide_eq_true_eq]
      exact ⟨⟨ha, hb⟩, hlt⟩
    rw [shouldSkipImage]
    by_cases hm : matchesSkipPattern src = true
    · rw [if_pos hm]
    · rw [if_neg hm, if_pos hcond]
  · intro hs
    rw [shouldSkipImage]
    by_cases hm : matchesSkipPattern src = true
    · rw [if_pos hm]
    · rw [if_neg hm]
      by_cases hd : dimsBelowMin w h = true
      · rw [if_pos hd]
      · rw [if_neg hd, if_pos hs]
  · intro hx
    have hor : ((str "http://").isPrefixOf src || (str "https://").isPrefixOf src)
        = true := by
      rcases hx with hx | hx
      · rw [hx]
        rfl
      · rw [hx, Bool.or_true]
    rw [shouldSkipImage]
    by_cases hm : matchesSkipPattern src = true
    · rw [if_pos hm]
    · rw [if_neg hm]
      by_cases hd : dimsBelowMin w h = true
      · rw [if_pos hd]
      · rw [if_neg hd]
        by_cases hv : endsWith (str ".svg") src = true
        · rw [if_pos hv]
        · rw [if_neg hv, if_pos hor]

/-- Witness for C8: a logo-named path with large declared dimensions, a
50-by-50 image, and an external URL are all skipped. -/
theorem C8_witness :
    shouldSkipImage (str "/assets/site-logo.png") (some 2000) (some 1500) = true ∧
    shouldSkipImage (str "/assets/photo.png") (some 50) (some 50) = true ∧
    shouldSkipImage (str "https://cdn.example.com/a.jpg") none none = true :=
  ⟨(C8_skip_policy (str "/assets/site-logo.png") (some 2000) (some 1500)).1
      (by decide),
   (C8_skip_policy (str "/assets/photo.png") (some 50) (some 50)).2.1 50 50 rfl rfl
      (by decide) (by decide) (Or.inl (by decide)),
   (C8_skip_policy (str "https://cdn.example.com/a.jpg") none none).2.2.2
      (Or.inr (by decide))⟩

/-- C9: an HTML file is written back (with the rewritten DOM) exactly when at
least one of its images was processed; with zero qualifying images the
returned on-disk bytes are the original file, unwritten. -/
theorem C9_write_iff_processed :
    ∀ (html : Str) (imgs : List ImgTag) (rewrittenHtml : Str),
      ((imgs.filter imgProcessed).length = 0 →
        processHtmlFile html imgs rewrittenHtml = (html, false)) ∧
      ((processHtmlFile html imgs rewrittenHtml).2 = true ↔
        0 < (imgs.filter imgProcessed).length) := by
  intro html imgs rh
  rw [processHtmlFile]
  by_cases h0 : imgs.length = 0
  · rw [if_pos h0]
    have he : imgs = [] := List.length_eq_zero.mp h0
    subst he
    constructor
    · intro _
      rfl
    · simp
  · rw [if_neg h0]
    by_cases hc : 0 < (imgs.filter imgProcessed).length
    · rw [if_pos hc]
      constructor
      · intro hz
        omega
      · simp [hc]
    · rw [if_neg hc]
      constructor
      · intro _
        rfl
      · simp [hc]

/-- Witness for C9: a file whose only image hits the logo skip pattern keeps
its original bytes and is not written. -/
theorem C9_witness :
    processHtmlFile (str "old bytes")
      [{ src := some (str "/img/logo.png"), width := none, height := none,
         processOk := true }]
      (str "new bytes") = (str "old bytes", false) :=
  (C9_write_iff_processed (str "old bytes")
    [{ src := some (str "/img/logo.png"), width := none, height := none,
       processOk := true }]
    (str "new bytes")).1 (by decide)

/-! Membership lemmas for the speakers facet. -/

lemma jsOr_ne_nil (o : Option Str) (d : Str) (hd : ¬ d = []) : ¬ jsOr o d = [] := by
  cases o with
  | none => exact hd
  | some s =>
    rw [jsOr]
    by_cases hs : s = []
    · rw [if_pos hs]
      exact hd
    · rw [if_neg hs]
      exact hs

lemma mem_insertCmp (cmp : Str → Str → Int) (x y : Str) (l : List Str)
    (h : y ∈ insertCmp cmp x l) : y = x ∨ y ∈ l := by
  induction l with
  | nil => simpa [insertCmp] using h
  | cons z zs ih =>
    rw [insertCmp] at h
    by_cases hc : cmp x z ≤ 0
    · rw [if_pos hc] at h
      rcases List.mem_cons.mp h with h2 | h2
      · exact Or.inl h2
      · exact Or.inr h2
    · rw [if_neg hc] at h
      rcases List.mem_cons.mp h with h2 | h2
      · subst h2
        exact Or.inr (List.mem_cons_self _ _)
      · rcases ih h2 with h3 | h3
        · exact Or.inl h3
        · exact Or.inr (List.mem_cons_of_mem _ h3)

lemma mem_sortCmp (cmp : Str → Str → Int) (y : Str) (l : List Str)
    (h : y ∈ sortCmp cmp l) : y ∈ l := by
  induction l with
  | nil => simp [sortCmp] at h
  | cons z zs ih =>
    rw [sortCmp, List.foldr_cons] at h
    rcases mem_insertCmp cmp z y _ h with h2 | h2
    · subst h2
      exact List.mem_cons_self _ _
    · exact List.mem_cons_of_mem _ (ih h2)

lemma mem_jsSetDedupAux (l : List Str) (y : Str) :
    ∀ seen : List Str, y ∈ jsSetDedupAux l seen → y ∈ l := by
  induction l with
  | nil =>
    intro seen h
    simp [jsSetDedupAux] at h
  | cons z zs ih =>
    intro seen h
    rw [jsSetDedupAux] at h
    by_cases hc : seen.contains z = true
    · rw [if_pos hc] at h
      exact List.mem_cons_of_mem _ (ih seen h)
    · rw [if_neg hc] at h
      rcases List.mem_cons.mp h with h2 | h2
      · subst h2
        exact List.mem_cons_self _ _
      · exact List.mem_cons_of_mem _ (ih (z :: seen) h2)

lemma speakersFacet_subset (sermons : List Sermon) (y : Str)
    (h : y ∈ speakersFacet sermons) : y ∈ sermons.map (fun s => s.speaker) := by
  rw [speakersFacet] at h
  exact mem_jsSetDedupAux _ _ _ (mem_sortCmp _ _ _ h)

/-- C10: every constructed sermon entry carries a nonempty title and speaker,
absent feed fields fall back to the documented defaults, and the speakers
facet therefore never contains the empty string. -/
theorem C10_nonempty_defaults :
    (∀ item : FeedItem,
      ¬ (mkSermon item).title = [] ∧ ¬ (mkSermon item).speaker = [] ∧
      (item.title = none → (mkSermon item).title = str "Untitled Sermon") ∧
      (item.speaker = none → (mkSermon item).speaker = str "Unknown Speaker")) ∧
    (∀ items : List FeedItem, ¬ ([] : Str) ∈ speakersFacet (items.map mkSermon)) := by
  constructor
  · intro item
    refine ⟨jsOr_ne_nil _ _ (by decide), jsOr_ne_nil _ _ (by decide), ?_, ?_⟩
    · intro h
      show jsOr item.title (str "Untitled Sermon") = str "Untitled Sermon"
      rw [h]
      rfl
    · intro h
      show jsOr item.speaker (str "Unknown Speaker") = str "Unknown Speaker"
      rw [h]
      rfl
  · intro items hmem
    have h2 := speakersFacet_subset _ _ hmem
    rw [List.map_map] at h2
    rcases List.mem_map.mp h2 with ⟨item, _, heq⟩
    exact jsOr_ne_nil item.speaker (str "Unknown Speaker") (by decide) heq

/-- Witness for C10: an item with absent title and author fields gets the
default title and speaker. -/
theorem C10_witness :
    (mkSermon { title := none, speaker := none, content := none,
                description := none, subtitle := none,
                duration := none }).title = str "Untitled Sermon" :=
  (C10_nonempty_defaults.1 _).2.2.1 rfl
